import Mathlib

/-!
Verification of the Fluke `.is2` thermal reader (`fluke_thermal_reader`).

Shallow embedding, in Lean 4, of the binary-decoding and radiometric-conversion
pipeline of the `fluke_thermal_reader` Python package:

* `parsers.py` — `IS2Parser._parse_gpbenc_length_delimited` (length-delimited
  sub-record scanner), `IS2Parser._extract_thermal_from_caltempdatarex`
  (scanned-blob payload locator), `IS2Parser._read_calibration_data`
  (calibration LUT builder), `IS2Parser._read_ir_data_from_ir_data`
  (fixed-array geometry fix and radiometric conversion),
  `IS2Parser._read_image_properties` and
  `IS2Parser._infer_dimensions_from_main_image` (metadata and dimensions);
* `camera_profiles.py` — `get_camera_profile` (profile resolution).

Modelling conventions:

* byte buffers are `List Nat` (each element a byte value `0..255`);
* Python's unbounded integers are `Nat`/`Int`;
* IEEE-754 binary32 values stored in the files are decoded bit-exactly into
  `ℚ` (`decode_f32`); IEEE special values (exponent 255, i.e. infinities and
  NaNs) decode to `none` and make the enclosing record unusable.  The float
  *arithmetic* performed by the Python code on the decoded values is idealised
  as exact rational arithmetic; `np.sqrt` and `x ** 0.25` are modelled by
  `rat_sqrt` (and its double application), which agrees with the real square
  root on every rational whose square root is rational — all concrete
  evaluations below stay inside that regime;
* Python dictionaries holding the count → temperature conversion table are
  association lists where the most recent insertion is consulted first
  (`lut_lookup`), matching dict assignment/overwrite semantics;
* fallible Python operations (`float(...)`, `int(...)`, decoding) are
  `Option`-valued; a Python statement that can raise inside a `try` block is
  embedded in `Except`-style with the state accumulated so far as the error
  payload, matching the fact that Python mutations made before an exception
  survive it.
-/

namespace FlukeIs2

/- `Rat.add`, `Rat.mul`, `Rat.sub`, `Rat.inv` and `Rat.ofScientific` are
shipped `@[irreducible]`; concrete evaluation of the embedded decoders by
`decide` needs them to unfold. -/
attribute [local semireducible] Rat.add Rat.mul Rat.sub Rat.inv Rat.ofScientific

set_option maxRecDepth 100000

/-! ## Varint reading

Embeds the inner function `read_varint` of
`IS2Parser._parse_gpbenc_length_delimited` (parsers.py lines 65-79).  The
Python version walks `raw` from position `pos`; here the not-yet-consumed
suffix of the buffer is passed as a list.  The returned list is the remaining
suffix after the read; `none` as first component models Python's `None`
result (end of buffer, or more than 64 bits of varint payload).  Note that the
Python function advances `pos` even when it returns `None` mid-number; the
returned suffix reflects that.
-/

def read_varint (v shift : Nat) : List Nat → Option Nat × List Nat
  | [] => (none, [])
  | b :: rest =>
    -- v |= (b & 0x7F) << shift; for byte values, b & 0x7F = b % 128
    let v2 := v ||| ((b % 128) <<< shift)
    -- (b & 0x80) == 0  ⟺  b % 256 < 128 (bit 7 clear)
    if b % 256 < 128 then (some v2, rest)
    else if shift + 7 ≥ 64 then (none, rest)
    else read_varint v2 (shift + 7) rest

theorem read_varint_len_le (v shift : Nat) (l : List Nat) :
    (read_varint v shift l).2.length ≤ l.length := by
  induction l generalizing v shift with
  | nil => simp [read_varint]
  | cons b rest ih =>
    simp only [read_varint]
    split
    · exact Nat.le_succ _
    · split
      · exact Nat.le_succ _
      · exact le_trans (ih _ _) (Nat.le_succ _)

theorem read_varint_some_lt (v shift : Nat) (l : List Nat) (x : Nat) (r : List Nat)
    (h : read_varint v shift l = (some x, r)) : r.length < l.length := by
  induction l generalizing v shift with
  | nil => simp [read_varint] at h
  | cons b rest ih =>
    simp only [read_varint] at h
    split at h
    · cases h; exact Nat.lt_succ_of_le (Nat.le_refl _)
    · split at h
      · cases h
      · exact Nat.lt_succ_of_le (Nat.le_of_lt (ih _ _ h))

/-! ## The length-delimited sub-record scanner

Embeds `IS2Parser._parse_gpbenc_length_delimited` (parsers.py lines 60-108).
`n` is `len(raw)` of the buffer being scanned, `rem` is the suffix of that
buffer that has not been consumed yet (so the Python `pos` is
`n - rem.length`), `base` is `base_offset`.  Wire type 0 skips one varint,
1 skips 8 bytes, 5 skips 4 bytes; wire type 2 reads a length, records the
`(offset, length)` pair, recurses into payloads larger than 1024 bytes that
are shorter than the whole buffer, and skips the payload.  Any other wire
type, or a failed varint read, or an out-of-bounds skip/payload ends the scan.
-/

def gpbenc_scan (n base : Nat) (recurse : Bool) (rem : List Nat) : List (Nat × Nat) :=
  match hv : read_varint 0 0 rem with
  | (none, _) => []
  | (some tag, rem1) =>
    if tag % 8 = 0 then
      gpbenc_scan n base recurse (read_varint 0 0 rem1).2
    else if tag % 8 = 1 then
      if 8 > rem1.length then [] else gpbenc_scan n base recurse (rem1.drop 8)
    else if tag % 8 = 2 then
      match hl : read_varint 0 0 rem1 with
      | (none, _) => []
      | (some len, rem2) =>
        if len > rem2.length then []
        else
          let off := base + (n - rem2.length)
          let nested :=
            if recurse && decide (len > 1024) && decide (len < n) then
              gpbenc_scan len off true (rem2.take len)
            else []
          (off, len) :: (nested ++ gpbenc_scan n base recurse (rem2.drop len))
    else if tag % 8 = 5 then
      if 4 > rem1.length then [] else gpbenc_scan n base recurse (rem1.drop 4)
    else []
termination_by (n, rem.length)
decreasing_by
  · have h1 := read_varint_some_lt 0 0 rem tag rem1 hv
    have h2 := read_varint_len_le 0 0 rem1
    exact Prod.Lex.right n (by omega)
  · have h1 := read_varint_some_lt 0 0 rem tag rem1 hv
    exact Prod.Lex.right n (by simp only [List.length_drop]; omega)
  · rename_i hrec
    simp only [Bool.and_eq_true, decide_eq_true_eq] at hrec
    exact Prod.Lex.left _ _ hrec.2
  · have h1 := read_varint_some_lt 0 0 rem tag rem1 hv
    have h2 := read_varint_some_lt 0 0 rem1 len rem2 hl
    exact Prod.Lex.right n (by simp only [List.length_drop]; omega)
  · have h1 := read_varint_some_lt 0 0 rem tag rem1 hv
    exact Prod.Lex.right n (by simp only [List.length_drop]; omega)

/-- `IS2Parser._parse_gpbenc_length_delimited(raw, base_offset, recurse)`. -/
def parse_gpbenc_length_delimited (raw : List Nat) (base : Nat) (recurse : Bool) :
    List (Nat × Nat) :=
  gpbenc_scan raw.length base recurse raw

theorem gpbenc_scan_bounds (n base : Nat) (recurse : Bool) (rem : List Nat) :
    rem.length ≤ n → ∀ o l, (o, l) ∈ gpbenc_scan n base recurse rem →
      base + (n - rem.length) ≤ o ∧ o + l ≤ base + n := by
  induction n, base, recurse, rem using gpbenc_scan.induct with
  | case1 n base recurse rem snd hv =>
    intro _ o l hmem
    rw [gpbenc_scan.eq_def, hv] at hmem
    simp at hmem
  | case2 n base recurse rem tag rem1 hv h0 ih =>
    intro hlen o l hmem
    rw [gpbenc_scan.eq_def, hv] at hmem
    simp only [h0, if_true] at hmem
    have h1 := read_varint_some_lt 0 0 rem tag rem1 hv
    have h2 := read_varint_len_le 0 0 rem1
    have := ih (by omega) o l hmem
    omega
  | case3 n base recurse rem tag rem1 hv h0 h1 hlt =>
    intro _ o l hmem
    rw [gpbenc_scan.eq_def, hv] at hmem
    simp only [h0, h1, if_true, if_false, hlt] at hmem
    simp at hmem
  | case4 n base recurse rem tag rem1 hv h0 h1 hlt ih =>
    intro hlen o l hmem
    rw [gpbenc_scan.eq_def, hv] at hmem
    simp only [h0, h1, hlt, if_true, if_false] at hmem
    have hr1 := read_varint_some_lt 0 0 rem tag rem1 hv
    have := ih (by simp only [List.length_drop]; omega) o l hmem
    simp only [List.length_drop] at this
    omega
  | case5 n base recurse rem tag rem1 hv h0 h1 h2 snd hl =>
    intro _ o l hmem
    rw [gpbenc_scan.eq_def, hv] at hmem
    simp only [h0, h1, h2, if_true, if_false] at hmem
    rw [hl] at hmem
    simp at hmem
  | case6 n base recurse rem tag rem1 hv h0 h1 h2 len rem2 hl hgt =>
    intro _ o l hmem
    rw [gpbenc_scan.eq_def, hv] at hmem
    simp only [h0, h1, h2, if_true, if_false] at hmem
    rw [hl] at hmem
    simp only [hgt, if_true] at hmem
    simp at hmem
  | case7 n base recurse rem tag rem1 hv h0 h1 h2 len rem2 hl hgt off ihn ihr =>
    intro hlen o l hmem
    rw [gpbenc_scan.eq_def, hv] at hmem
    simp only [h0, h1, h2, if_true, if_false] at hmem
    rw [hl] at hmem
    simp only [hgt] at hmem
    norm_num [List.mem_cons, List.mem_append] at hmem
    have hr1 := read_varint_some_lt 0 0 rem tag rem1 hv
    have hr2 := read_varint_some_lt 0 0 rem1 len rem2 hl
    have hlen2 : rem2.length ≤ n := by omega
    have hlenle : len ≤ rem2.length := by omega
    have hoff : off = base + (n - rem2.length) := rfl
    rcases hmem with ⟨rfl, rfl⟩ | ⟨⟨⟨hrt, h1024⟩, hln⟩, hmem⟩ | hmem
    · constructor <;> omega
    · have hc : (recurse && decide (len > 1024) && decide (len < n)) = true := by
        simp [hrt, h1024, hln]
      have htk : (List.take len rem2).length ≤ len := by simp [List.length_take]
      have hb := ihn hc htk o l hmem
      simp only [List.length_take] at hb
      constructor <;> omega
    · have hb := ihr (by simp only [List.length_drop]; omega) o l hmem
      simp only [List.length_drop] at hb
      constructor <;> omega
  | case8 n base recurse rem tag rem1 hv h0 h1 h2 h5 hlt =>
    intro _ o l hmem
    rw [gpbenc_scan.eq_def, hv] at hmem
    simp only [h0, h1, h2, h5, hlt, if_true, if_false] at hmem
    simp at hmem
  | case9 n base recurse rem tag rem1 hv h0 h1 h2 h5 hlt ih =>
    intro hlen o l hmem
    rw [gpbenc_scan.eq_def, hv] at hmem
    simp only [h0, h1, h2, h5, hlt, if_true, if_false] at hmem
    have hr1 := read_varint_some_lt 0 0 rem tag rem1 hv
    have := ih (by simp only [List.length_drop]; omega) o l (by simpa using hmem)
    simp only [List.length_drop] at this
    omega
  | case10 n base recurse rem tag rem1 hv h0 h1 h2 h5 =>
    intro _ o l hmem
    rw [gpbenc_scan.eq_def, hv] at hmem
    simp only [h0, h1, h2, h5, if_true, if_false] at hmem
    simp at hmem

/-! ## A fuel-instrumented scanner, used to express termination

`gpbenc_scan_fuel` is the same algorithm with an explicit step budget: every
loop continuation and every recursion into a nested span spends one unit of
fuel, and running out of fuel yields `none`.  Claim C10 is settled by proving
that a budget of `rem.length + 1` can never be exhausted: every varint read
that yields a tag consumes at least one byte, and nested recursion only enters
spans strictly shorter than the current buffer.
-/

def gpbenc_scan_fuel (fuel n base : Nat) (recurse : Bool) (rem : List Nat) :
    Option (List (Nat × Nat)) :=
  match fuel with
  | 0 => none
  | fuel + 1 =>
    match read_varint 0 0 rem with
    | (none, _) => some []
    | (some tag, rem1) =>
      if tag % 8 = 0 then
        gpbenc_scan_fuel fuel n base recurse (read_varint 0 0 rem1).2
      else if tag % 8 = 1 then
        if 8 > rem1.length then some []
        else gpbenc_scan_fuel fuel n base recurse (rem1.drop 8)
      else if tag % 8 = 2 then
        match read_varint 0 0 rem1 with
        | (none, _) => some []
        | (some len, rem2) =>
          if len > rem2.length then some []
          else
            let off := base + (n - rem2.length)
            let nested :=
              if recurse && decide (len > 1024) && decide (len < n) then
                gpbenc_scan_fuel fuel len off true (rem2.take len)
              else some []
            match nested, gpbenc_scan_fuel fuel n base recurse (rem2.drop len) with
            | some ns, some rest => some ((off, len) :: (ns ++ rest))
            | _, _ => none
      else if tag % 8 = 5 then
        if 4 > rem1.length then some []
        else gpbenc_scan_fuel fuel n base recurse (rem1.drop 4)
      else some []

theorem gpbenc_scan_fuel_adequate (n base : Nat) (recurse : Bool) (rem : List Nat) :
    ∀ fuel, rem.length < fuel →
      gpbenc_scan_fuel fuel n base recurse rem = some (gpbenc_scan n base recurse rem) := by
  induction n, base, recurse, rem using gpbenc_scan.induct with
  | case1 n base recurse rem snd hv =>
    intro fuel hf
    match fuel, hf with
    | fuel + 1, _ =>
      rw [gpbenc_scan.eq_def, hv]
      simp only [gpbenc_scan_fuel]
      rw [hv]
  | case2 n base recurse rem tag rem1 hv h0 ih =>
    intro fuel hf
    match fuel, hf with
    | fuel + 1, hf =>
      have h1 := read_varint_some_lt 0 0 rem tag rem1 hv
      have h2 := read_varint_len_le 0 0 rem1
      rw [gpbenc_scan.eq_def, hv]
      simp only [gpbenc_scan_fuel]
      rw [hv]
      simp only [h0, if_true]
      exact ih fuel (by omega)
  | case3 n base recurse rem tag rem1 hv h0 h1 hlt =>
    intro fuel hf
    match fuel, hf with
    | fuel + 1, _ =>
      rw [gpbenc_scan.eq_def, hv]
      simp only [gpbenc_scan_fuel]
      rw [hv]
      simp [h0, h1, hlt]
  | case4 n base recurse rem tag rem1 hv h0 h1 hlt ih =>
    intro fuel hf
    match fuel, hf with
    | fuel + 1, hf =>
      have h2 := read_varint_some_lt 0 0 rem tag rem1 hv
      rw [gpbenc_scan.eq_def, hv]
      simp only [gpbenc_scan_fuel]
      rw [hv]
      simp only [h0, h1, if_true, if_false]
      simp [hlt]
      exact ih fuel (by simp only [List.length_drop]; omega)
  | case5 n base recurse rem tag rem1 hv h0 h1 h2 snd hl =>
    intro fuel hf
    match fuel, hf with
    | fuel + 1, _ =>
      rw [gpbenc_scan.eq_def, hv]
      simp only [gpbenc_scan_fuel]
      rw [hv]
      simp only [h0, h1, h2, if_true, if_false]
      norm_num
      rw [hl]
  | case6 n base recurse rem tag rem1 hv h0 h1 h2 len rem2 hl hgt =>
    intro fuel hf
    match fuel, hf with
    | fuel + 1, _ =>
      rw [gpbenc_scan.eq_def, hv]
      simp only [gpbenc_scan_fuel]
      rw [hv]
      simp only [h0, h1, h2, if_true, if_false]
      norm_num
      rw [hl]
      simp [hgt]
  | case7 n base recurse rem tag rem1 hv h0 h1 h2 len rem2 hl hgt off ihn ihr =>
    intro fuel hf
    match fuel, hf with
    | fuel + 1, hf =>
      have hr1 := read_varint_some_lt 0 0 rem tag rem1 hv
      have hr2 := read_varint_some_lt 0 0 rem1 len rem2 hl
      rw [gpbenc_scan.eq_def, hv]
      simp only [gpbenc_scan_fuel]
      rw [hv]
      simp only [h0, h1, h2, if_true, if_false]
      norm_num
      rw [hl]
      have hrest := ihr fuel (by simp only [List.length_drop]; omega)
      by_cases hc : (recurse && decide (len > 1024) && decide (len < n)) = true
      · have hcp : (recurse = true ∧ 1024 < len) ∧ len < n := by
          simpa [and_assoc] using hc
        obtain ⟨⟨hrec, h1024⟩, hln⟩ := hcp
        subst hrec
        have htk : (rem2.take len).length < fuel := by
          simp only [List.length_take]; omega
        have hns := ihn hc fuel htk
        simp [hgt, hns, hrest, h1024, hln]
      · have hcn : ¬ ((recurse = true ∧ 1024 < len) ∧ len < n) := by
          simpa [and_assoc] using hc
        simp [hgt, hcn, hrest]
  | case8 n base recurse rem tag rem1 hv h0 h1 h2 h5 hlt =>
    intro fuel hf
    match fuel, hf with
    | fuel + 1, _ =>
      rw [gpbenc_scan.eq_def, hv]
      simp only [gpbenc_scan_fuel]
      rw [hv]
      simp [h0, h1, h2, h5, hlt]
  | case9 n base recurse rem tag rem1 hv h0 h1 h2 h5 hlt ih =>
    intro fuel hf
    match fuel, hf with
    | fuel + 1, hf =>
      have h6 := read_varint_some_lt 0 0 rem tag rem1 hv
      rw [gpbenc_scan.eq_def, hv]
      simp only [gpbenc_scan_fuel]
      rw [hv]
      simp [h0, h1, h2, h5]
      simp [hlt]
      exact ih fuel (by simp only [List.length_drop]; omega)
  | case10 n base recurse rem tag rem1 hv h0 h1 h2 h5 =>
    intro fuel hf
    match fuel, hf with
    | fuel + 1, _ =>
      rw [gpbenc_scan.eq_def, hv]
      simp only [gpbenc_scan_fuel]
      rw [hv]
      simp [h0, h1, h2, h5]

/-- C9: every (offset, length) pair returned by the length-delimited
sub-record scanner lies within the scanned buffer's bounds:
`base_offset ≤ offset` and `offset + length ≤ base_offset + len(raw)`.  This
includes the pairs produced by recursion into nested spans, so every recorded
span can be sliced without out-of-bounds access. -/
theorem C9_scanner_spans_in_bounds (raw : List Nat) (base : Nat) (recurse : Bool)
    (o l : Nat) (h : (o, l) ∈ parse_gpbenc_length_delimited raw base recurse) :
    base ≤ o ∧ o + l ≤ base + raw.length := by
  have hb := gpbenc_scan_bounds raw.length base recurse raw (le_refl _) o l h
  omega

/-- Witness for C9 at a concrete buffer: one field, tag `0x12` (field 2,
wire type 2), length 2, payload bytes `[170, 187]` at offset 2. -/
theorem C9_scanner_spans_in_bounds_witness :
    (2, 2) ∈ parse_gpbenc_length_delimited [18, 2, 170, 187] 0 true ∧
      0 ≤ 2 ∧ 2 + 2 ≤ 0 + ([18, 2, 170, 187] : List Nat).length := by
  have hmem : (2, 2) ∈ parse_gpbenc_length_delimited [18, 2, 170, 187] 0 true := by
    simp [parse_gpbenc_length_delimited, gpbenc_scan, read_varint]
  exact ⟨hmem, C9_scanner_spans_in_bounds [18, 2, 170, 187] 0 true 2 2 hmem⟩

/-- C10: the length-delimited sub-record scanner terminates.  Concretely: the
fuel-instrumented version of the scan, given a step budget of buffer length
plus one, never exhausts its fuel and returns exactly the value of the total
function — every loop iteration strictly advances the scan position (a varint
read that yields a tag consumes at least one byte) and recursion only enters
nested spans strictly shorter than the current buffer. -/
theorem C10_scanner_terminates (raw : List Nat) (base : Nat) (recurse : Bool) :
    gpbenc_scan_fuel (raw.length + 1) raw.length base recurse raw =
      some (parse_gpbenc_length_delimited raw base recurse) :=
  gpbenc_scan_fuel_adequate raw.length base recurse raw (raw.length + 1)
    (Nat.lt_succ_self _)


/-! ## Scanned-blob payload extraction

Embeds `IS2Parser._extract_thermal_from_caltempdatarex` (parsers.py lines
110-134).  `np.frombuffer(..., dtype=np.uint16)` is little-endian 16-bit
sample extraction (`bytes_to_u16`); a trailing odd byte is dropped, as numpy
would never see one here (all matched lengths are even).  The
`ir_data_offset` argument is the profile's header-skip convention: a string
(`"height"` or `"width"`), `None`, or empty — Python tests its truthiness.
-/

def u16le (b0 b1 : Nat) : Nat := b0 + 256 * b1

def bytes_to_u16 : List Nat → List Nat
  | b0 :: b1 :: rest => u16le b0 b1 :: bytes_to_u16 rest
  | _ => []

/-- `raw[st : st + len]`. -/
def byte_slice (raw : List Nat) (st len : Nat) : List Nat := (raw.drop st).take len

/-- `raw[-p:]` (note Python's `raw[-0:]` is the whole buffer). -/
def byte_slice_last (raw : List Nat) (p : Nat) : List Nat :=
  if p = 0 then raw else raw.drop (raw.length - p)

/-- `skip = h if ir_data_offset == "height" else w`. -/
def header_skip (s : String) (w h : Nat) : Nat := if s = "height" then h else w

/-- The first acceptance test inside the span loop: exact size match. -/
def try_exact (raw : List Nat) (st len w h : Nat) : Option (List Nat × Nat × Nat) :=
  if len = w * h * 2 ∧ st + len ≤ raw.length then
    let arr := bytes_to_u16 (byte_slice raw st len)
    if arr.length = w * h then some (arr, w, h) else none
  else none

/-- The second acceptance test: header-prefixed blob, skip `height` or `width`
16-bit samples per the profile convention. -/
def try_header (irOff : Option String) (raw : List Nat) (st len w h : Nat) :
    Option (List Nat × Nat × Nat) :=
  match irOff with
  | none => none
  | some s =>
    if s.isEmpty then none
    else
      let skip := header_skip s w h
      if len = (skip + w * h) * 2 ∧ st + len ≤ raw.length then
        let arr := bytes_to_u16 (byte_slice raw (st + skip * 2) (len - skip * 2))
        if arr.length = w * h then some (arr, w, h) else none
      else none

/-- `IS2Parser._extract_thermal_from_caltempdatarex(raw, payload_sizes_order,
ir_data_offset)`; `none` models the `(None, 0, 0)` failure return. -/
def extract_thermal_from_caltempdatarex (raw : List Nat) (sizes : List (Nat × Nat))
    (irOff : Option String) : Option (List Nat × Nat × Nat) :=
  match (parse_gpbenc_length_delimited raw 0 true).findSome? (fun sl =>
      sizes.findSome? (fun wh =>
        (try_exact raw sl.1 sl.2 wh.1 wh.2).orElse
          (fun _ => try_header irOff raw sl.1 sl.2 wh.1 wh.2))) with
  | some r => some r
  | none =>
    sizes.findSome? (fun wh =>
      if wh.1 * wh.2 * 2 ≤ raw.length then
        some (bytes_to_u16 (byte_slice_last raw (wh.1 * wh.2 * 2)), wh.1, wh.2)
      else none)

theorem bytes_to_u16_length (l : List Nat) : (bytes_to_u16 l).length = l.length / 2 := by
  induction l using bytes_to_u16.induct with
  | case1 b0 b1 rest ih =>
    simp only [bytes_to_u16, List.length_cons, ih]
    omega
  | case2 l h1 =>
    cases l with
    | nil => simp [bytes_to_u16]
    | cons b t =>
      cases t with
      | nil => simp [bytes_to_u16]
      | cons c r => exact absurd rfl (h1 b c r)

theorem byte_slice_length (raw : List Nat) (st len : Nat) (h : st + len ≤ raw.length) :
    (byte_slice raw st len).length = len := by
  simp only [byte_slice, List.length_take, List.length_drop]
  omega

theorem findSome?_congr_mem {α β : Type} (l : List α) (f g : α → Option β)
    (h : ∀ x ∈ l, f x = g x) : l.findSome? f = l.findSome? g := by
  induction l with
  | nil => rfl
  | cons a l ih =>
    rw [List.findSome?_cons, List.findSome?_cons, h a (List.mem_cons_self a l)]
    cases g a with
    | none => exact ih (fun x hx => h x (List.mem_cons_of_mem a hx))
    | some b => rfl


/-- The acceptance and fallback behaviour, written out as the (amended)
specification states it: a scanned span is accepted for candidate `(w, h)`
iff its byte length is exactly `w*h*2`, or — when the profile supplies a
non-empty header-skip convention — exactly `(skip + w*h)*2` where `skip` is
`height` or `width` per that convention, in which case the `skip` leading
16-bit header samples are discarded; spans and candidates are tried in order;
when no span matches any candidate, the last `w*h*2` bytes of the whole
buffer are used for the first candidate whose payload size fits inside the
buffer, and the extraction fails only when no candidate fits at all. -/
def extract_thermal_spec (raw : List Nat) (sizes : List (Nat × Nat))
    (irOff : Option String) : Option (List Nat × Nat × Nat) :=
  match (parse_gpbenc_length_delimited raw 0 true).findSome? (fun sl =>
      sizes.findSome? (fun wh =>
        if sl.2 = wh.1 * wh.2 * 2 then
          some (bytes_to_u16 (byte_slice raw sl.1 sl.2), wh.1, wh.2)
        else match irOff with
          | none => none
          | some s =>
            if s.isEmpty then none
            else if sl.2 = (header_skip s wh.1 wh.2 + wh.1 * wh.2) * 2 then
              some (bytes_to_u16 (byte_slice raw (sl.1 + header_skip s wh.1 wh.2 * 2)
                (sl.2 - header_skip s wh.1 wh.2 * 2)), wh.1, wh.2)
            else none)) with
  | some r => some r
  | none =>
    sizes.findSome? (fun wh =>
      if wh.1 * wh.2 * 2 ≤ raw.length then
        some (bytes_to_u16 (byte_slice_last raw (wh.1 * wh.2 * 2)), wh.1, wh.2)
      else none)

theorem try_accept_eq (raw : List Nat) (irOff : Option String) (st len w h : Nat)
    (hb : st + len ≤ raw.length) :
    (try_exact raw st len w h).orElse (fun _ => try_header irOff raw st len w h) =
      (if len = w * h * 2 then
        some (bytes_to_u16 (byte_slice raw st len), w, h)
      else match irOff with
        | none => none
        | some s =>
          if s.isEmpty then none
          else if len = (header_skip s w h + w * h) * 2 then
            some (bytes_to_u16 (byte_slice raw (st + header_skip s w h * 2)
              (len - header_skip s w h * 2)), w, h)
          else none) := by
  have hE : ¬ len = w * h * 2 → try_exact raw st len w h = none := by
    intro hx; simp [try_exact, hx]
  by_cases hx : len = w * h * 2
  · subst hx
    have harr : (bytes_to_u16 (byte_slice raw st (w * h * 2))).length = w * h := by
      rw [bytes_to_u16_length, byte_slice_length raw st (w * h * 2) hb]; omega
    simp [try_exact, hb, harr, Option.orElse]
  · rw [if_neg hx]
    have he := hE hx
    cases irOff with
    | none => simp [he, try_header, Option.orElse]
    | some s =>
      by_cases hse : s.isEmpty
      · simp [he, try_header, hse, Option.orElse]
      · by_cases hh : len = (header_skip s w h + w * h) * 2
        · subst hh
          have hb2 : st + header_skip s w h * 2 +
              ((header_skip s w h + w * h) * 2 - header_skip s w h * 2) ≤
              raw.length := by omega
          have harr : (bytes_to_u16 (byte_slice raw (st + header_skip s w h * 2)
              ((header_skip s w h + w * h) * 2 - header_skip s w h * 2))).length = w * h := by
            rw [bytes_to_u16_length, byte_slice_length _ _ _ hb2]
            omega
          simp [he, try_header, hse, hb, harr, Option.orElse]
        · simp [he, try_header, hse, hh, Option.orElse]

/-- C4 (amended): the payload extractor behaves exactly as the span-size
acceptance rule states — a span is used for candidate `(w, h)` iff its length
is `w*h*2` or, under a non-empty header-skip convention, `(skip + w*h)*2`
(header discarded); with no matching span, the last `w*h*2` bytes of the whole
buffer are used for the first candidate *whose payload fits in the buffer*
(not necessarily the first candidate); it fails iff no candidate fits. -/
theorem C4_extract_thermal_characterization (raw : List Nat) (sizes : List (Nat × Nat))
    (irOff : Option String) :
    extract_thermal_from_caltempdatarex raw sizes irOff =
      extract_thermal_spec raw sizes irOff := by
  unfold extract_thermal_from_caltempdatarex extract_thermal_spec
  have hspans : ∀ sl ∈ parse_gpbenc_length_delimited raw 0 true,
      sl.1 + sl.2 ≤ raw.length := by
    intro sl hsl
    have hb := gpbenc_scan_bounds raw.length 0 true raw (le_refl _) sl.1 sl.2
      (by simpa using hsl)
    omega
  rw [findSome?_congr_mem _ _ _ (fun sl hsl => findSome?_congr_mem _ _ _
      (fun wh _ => try_accept_eq raw irOff sl.1 sl.2 wh.1 wh.2 (hspans sl hsl)))]

/-- Counterexample to C4 as frozen: candidates `[(4,4), (1,1)]`, a 2-byte
buffer in which the scanner finds no spans.  The first candidate size `4*4*2 =
32` does not fit into the buffer, so the fallback does not use it; the code
returns the last `1*1*2` bytes for the *second* candidate `(1,1)` instead of
using the first candidate size, and it does not fail. -/
theorem C4_counterexample :
    parse_gpbenc_length_delimited [0, 0] 0 true = [] ∧
      extract_thermal_from_caltempdatarex [0, 0] [(4, 4), (1, 1)] none =
        some ([0], 1, 1) := by
  constructor
  · simp [parse_gpbenc_length_delimited, gpbenc_scan, read_varint]
  · simp [extract_thermal_from_caltempdatarex, parse_gpbenc_length_delimited,
      gpbenc_scan, read_varint, byte_slice_last, bytes_to_u16, u16le]



/-! ## IEEE-754 binary32 decoding and exact square roots -/

/-- Decode a little-endian IEEE-754 binary32 value into an exact rational.
Exponent 255 (infinities, NaNs) yields `none`. -/
def decode_f32 (b0 b1 b2 b3 : Nat) : Option ℚ :=
  let w : Nat := b0 + 256 * (b1 + 256 * (b2 + 256 * b3))
  let sign : Nat := w / 2 ^ 31 % 2
  let ex : Nat := w / 2 ^ 23 % 256
  let frac : Nat := w % 2 ^ 23
  if ex = 255 then none
  else
    let mag : ℚ :=
      if ex = 0 then (frac : ℚ) / 2 ^ 149
      else ((2 ^ 23 + frac : ℚ)) * 2 ^ ex / 2 ^ 150
    some (if sign = 1 then -mag else mag)

def nat_sqrt_bs (n : Nat) : Nat → Nat → Nat → Nat
  | 0, lo, _ => lo
  | fuel + 1, lo, hi =>
    if hi ≤ lo + 1 then lo
    else
      let mid := (lo + hi) / 2
      if mid * mid ≤ n then nat_sqrt_bs n fuel mid hi else nat_sqrt_bs n fuel lo mid

/-- Floor square root of a natural number, by bounded binary search (a
kernel-reducible equivalent of the library square root). -/
def nat_sqrt (n : Nat) : Nat := nat_sqrt_bs n (n + 2) 0 (n + 1)

theorem nat_sqrt_bs_exact (m : Nat) : ∀ fuel lo hi : Nat, lo ≤ m → m < hi →
    hi ≤ lo + fuel → nat_sqrt_bs (m * m) fuel lo hi = m := by
  intro fuel
  induction fuel with
  | zero => intro lo hi h1 h2 h3; omega
  | succ f ih =>
    intro lo hi h1 h2 h3
    simp only [nat_sqrt_bs]
    by_cases hd : hi ≤ lo + 1
    · rw [if_pos hd]; omega
    · rw [if_neg hd]
      by_cases hm : (lo + hi) / 2 * ((lo + hi) / 2) ≤ m * m
      · have hk1 : (lo + hi) / 2 ≤ m := by
          by_contra hc
          push_neg at hc
          have := Nat.mul_self_lt_mul_self hc
          omega
        rw [if_pos hm]
        exact ih ((lo + hi) / 2) hi hk1 h2 (by omega)
      · have hk2 : m < (lo + hi) / 2 := by
          by_contra hc
          push_neg at hc
          have := Nat.mul_self_le_mul_self hc
          omega
        rw [if_neg hm]
        exact ih lo ((lo + hi) / 2) h1 hk2 (by omega)

theorem nat_sqrt_exact (m : Nat) : nat_sqrt (m * m) = m := by
  have hmm : m ≤ m * m := by
    cases m with
    | zero => simp
    | succ k => exact Nat.le_mul_of_pos_left _ (by omega)
  unfold nat_sqrt
  exact nat_sqrt_bs_exact m (m * m + 2) 0 (m * m + 1) (Nat.zero_le m) (by omega) (by omega)

/-- Model of the real square root on `ℚ` (used for `np.sqrt`, and doubled for
`x ** 0.25`): exact on every nonnegative rational that has a rational square
root, a floor-like approximation elsewhere. -/
def rat_sqrt (q : ℚ) : ℚ := (nat_sqrt (q.num.toNat * q.den) : ℚ) / (q.den : ℚ)

theorem rat_sqrt_mul_self (q : ℚ) (h : 0 ≤ q) : rat_sqrt (q * q) = q := by
  have hd : q.den ≠ 0 := q.den_nz
  have hnum : 0 ≤ q.num := Rat.num_nonneg.mpr h
  unfold rat_sqrt
  rw [Rat.mul_self_num, Rat.mul_self_den]
  have h1 : (q.num * q.num).toNat = q.num.toNat * q.num.toNat := by
    rcases Int.eq_ofNat_of_zero_le hnum with ⟨a, ha⟩
    simp only [ha, Int.toNat_natCast, ← Nat.cast_mul]
  rw [h1]
  have h2 : q.num.toNat * q.num.toNat * (q.den * q.den) =
      q.num.toNat * q.den * (q.num.toNat * q.den) := by ring
  rw [h2, nat_sqrt_exact]
  have h3 : ((q.num.toNat : ℚ)) = ((q.num : ℤ) : ℚ) := by
    rw [← Int.toNat_of_nonneg hnum]
    push_cast
    rfl
  have hdq : (q.den : ℚ) ≠ 0 := by exact_mod_cast hd
  rw [Nat.cast_mul, Nat.cast_mul, h3, mul_div_mul_right _ _ hdq, Rat.num_div_den]



/-! ## Calibration curve segments and the count → temperature LUT

Embeds the LUT-building part of `IS2Parser._read_calibration_data`
(parsers.py lines 345-390).  The scan tries byte positions `0 .. len-27`; at
each position carrying the magic tag `(74, 25, 13)` a 24-byte curve segment is
read.  Layout 0 takes the two endpoint floats from segment bytes `[0:4]` and
`[5:9]`; layout 1 from `[0:4]` and `[4:8]`.  Layout 0 is run over the whole
buffer first; layout 1 only if layout 0 stored nothing.  The Python checks
happen in sequence with `continue`; they are combined here into one
conjunction, which is equivalent because the only fallible step (the
`try`-protected range computation) cannot raise in exact arithmetic.
Entries are stored by plain dict assignment — later segments *overwrite*
earlier ones — which the association list (newest first) mirrors. -/

structure Curve where
  a : ℚ
  b : ℚ
  c : ℚ
  t_lo : ℚ
  t_hi : ℚ
deriving DecidableEq, Repr

def byte_at (cal : List Nat) (i : Nat) : Nat := cal.getD i 0

def has_magic (cal : List Nat) (i : Nat) : Bool :=
  byte_at cal i == 74 && byte_at cal (i + 1) == 25 && byte_at cal (i + 2) == 13

/-- `curve_part = cal_data[i+3 : i+27]`. -/
def curve_part (cal : List Nat) (i : Nat) : List Nat := (cal.drop (i + 3)).take 24

/-- `unpack('<f', p[o:o+4])`. -/
def f32_at (p : List Nat) (o : Nat) : Option ℚ :=
  decode_f32 (p.getD o 0) (p.getD (o + 1) 0) (p.getD (o + 2) 0) (p.getD (o + 3) 0)

/-- Decode the five curve fields under the given layout (0 or 1):
`a = p[20:24]`, `b = p[15:19]`, `c = p[10:14]`, endpoints `p[0:4]` and
`p[5:9]` (layout 0) or `p[4:8]` (layout 1). -/
def decode_curve (layout : Nat) (p : List Nat) : Option Curve := do
  let tlo ← f32_at p 0
  let thi ← f32_at p (if layout = 0 then 5 else 4)
  let c ← f32_at p 10
  let b ← f32_at p 15
  let a ← f32_at p 20
  pure ⟨a, b, c, tlo, thi⟩

/-- `calc_equation([a, b, c], t) = a*t^2 + b*t + c` (utilities.py). -/
def calc_equation (cv : Curve) (t : ℚ) : ℚ := cv.a * t ^ 2 + cv.b * t + cv.c

/-- `int(x) + (x % 1 > 0)` exactly as Python computes it: truncation toward
zero plus an is-fractional indicator.  Equals `⌈x⌉` for `x ≥ 0` or integral
`x`, and `⌈x⌉ + 1` for negative non-integral `x`. -/
def int_ceilish (x : ℚ) : Int := x.num.tdiv x.den + (if x.den = 1 then 0 else 1)

def j_lo (cv : Curve) : Int := int_ceilish (calc_equation cv cv.t_lo)

def j_hi (cv : Curve) : Int := int_ceilish (calc_equation cv cv.t_hi)

/-- The `continue` filters of the segment loop, as one conjunction. -/
def curve_usable (cv : Curve) : Bool :=
  decide (cv.t_lo < cv.t_hi) &&
  !(cv.a == 0) &&
  !(cv.a == -1 && cv.b == -1 && cv.c == -1) &&
  !(cv.t_lo == -1 && cv.t_hi == -1) &&
  decide (j_lo cv < j_hi cv)

/-- `range(data_range_int[0], min(data_range_int[1], data_range_int[0] + 65536))`. -/
def curve_js (cv : Curve) : List Int :=
  (List.range (min (j_hi cv) (j_lo cv + 65536) - j_lo cv).toNat).map
    (fun k => j_lo cv + (k : Int))

/-- Body of the per-count loop: discriminant test, quadratic inversion by the
root formula, physical range test `-273.2 ≤ t ≤ 3000`. -/
def curve_entry (cv : Curve) (j : Int) : Option ℚ :=
  let disc := cv.b ^ 2 - 4 * cv.a * (cv.c - (j : ℚ))
  if disc < 0 then none
  else
    let t := (-cv.b + rat_sqrt disc) / (2 * cv.a)
    if -1366 / 5 ≤ t ∧ t ≤ 3000 then some t else none

/-- The `(count, temperature)` pairs one usable segment writes, in loop order. -/
def seg_entries (cv : Curve) : List (Int × ℚ) :=
  (curve_js cv).filterMap (fun j => (curve_entry cv j).map (fun t => (j, t)))

/-- All usable decoded segments of one layout pass, in scan order. -/
def usable_curves (cal : List Nat) (layout : Nat) : List Curve :=
  ((List.range (cal.length - 26)).filter (fun i => has_magic cal i)).filterMap
    (fun i => match decode_curve layout (curve_part cal i) with
      | some cv => if curve_usable cv then some cv else none
      | none => none)

/-- Dict lookup: the most recent insertion for a key wins. -/
def lut_lookup (m : List (Int × ℚ)) (j : Int) : Option ℚ :=
  (m.find? (fun p => p.1 == j)).map (fun p => p.2)

/-- One layout pass of the segment loop; each segment's entries are prepended,
so later segments shadow (overwrite) earlier ones on lookup. -/
def build_layer (cal : List Nat) (layout : Nat) : List (Int × ℚ) :=
  (usable_curves cal layout).foldl (fun acc cv => seg_entries cv ++ acc) []

/-- The LUT built by `IS2Parser._read_calibration_data`: layout 0 over the
whole buffer first; layout 1 only when layout 0 produced no entry. -/
def read_calibration_lut (cal : List Nat) : List (Int × ℚ) :=
  if (build_layer cal 0).isEmpty then build_layer cal 1 else build_layer cal 0

/-- The layout whose pass produced the final table. -/
def chosen_layout (cal : List Nat) : Nat :=
  if (build_layer cal 0).isEmpty then 1 else 0

/-- A usable segment's contribution at count `j`: its computed temperature
when `j` is in the segment's count range and passes the per-count tests. -/
def seg_lookup (cv : Curve) (j : Int) : Option ℚ :=
  if j ∈ curve_js cv then curve_entry cv j else none

/-- Layout-0 curve segment `a = 1, b = 0, c = 0, t_lo = 1, t_hi = 3`
(float32 little-endian bytes: 1.0 = `[0,0,128,63]`, 3.0 = `[0,0,64,64]`);
forward values are 1 and 9, so it writes counts 1..8. -/
def seg_a : List Nat :=
  [0, 0, 128, 63, 0, 0, 0, 64, 64, 0, 0, 0, 0, 0, 0, 0, 0, 0, 0, 0, 0, 0, 128, 63]

/-- Like `seg_a` but with `c = 3`: forward values 4 and 12, so it overlaps
`seg_a` on counts 4..8 and computes different temperatures there. -/
def seg_b : List Nat :=
  [0, 0, 128, 63, 0, 0, 0, 64, 64, 0, 0, 0, 64, 64, 0, 0, 0, 0, 0, 0, 0, 0, 128, 63]

/-- A calibration buffer with two magic-tagged segments whose count ranges
overlap at count 4. -/
def cal_two_segments : List Nat := [74, 25, 13] ++ seg_a ++ [74, 25, 13] ++ seg_b

/-- The same buffer truncated to its first segment only. -/
def cal_one_segment : List Nat := [74, 25, 13] ++ seg_a

/-- Curve segment `a = 1, b = 401, c = 0, t_lo = -200, t_hi = -199`
(-200.0 = `[0,0,72,195]`, -199.0 = `[0,0,71,195]`, 401.0 = `[0,128,200,67]`):
its low endpoint is below the -180 °C floor the specification claims. -/
def seg_low : List Nat :=
  [0, 0, 72, 195, 0, 0, 0, 71, 195, 0, 0, 0, 0, 0, 0, 0, 128, 200, 67, 0, 0, 0, 128, 63]

/-- A calibration buffer whose single usable segment has `t_lo = -200 °C`. -/
def cal_low_segment : List Nat := [74, 25, 13] ++ seg_low



theorem lut_lookup_append (xs ys : List (Int × ℚ)) (j : Int) :
    lut_lookup (xs ++ ys) j = (lut_lookup xs j).or (lut_lookup ys j) := by
  unfold lut_lookup
  rw [List.find?_append]
  cases List.find? (fun p => p.1 == j) xs <;> simp [Option.or]

theorem lut_lookup_seg_entries (cv : Curve) (j : Int) :
    lut_lookup (seg_entries cv) j = seg_lookup cv j := by
  unfold seg_entries seg_lookup
  have hgen : ∀ js : List Int,
      lut_lookup (js.filterMap (fun j' => (curve_entry cv j').map (fun t => (j', t)))) j =
        if j ∈ js then curve_entry cv j else none := by
    intro js
    induction js with
    | nil => simp [lut_lookup]
    | cons a js ih =>
      simp only [List.filterMap_cons]
      by_cases ha : a = j
      · subst ha
        cases hce : curve_entry cv a with
        | none =>
          simp only [Option.map_none']
          rw [ih]
          by_cases hj : a ∈ js <;> simp [hj, hce]
        | some t =>
          simp only [Option.map_some']
          simp [lut_lookup, hce]
      · cases hce : curve_entry cv a with
        | none =>
          simp only [Option.map_none']
          rw [ih]
          have haj : ¬ j = a := fun h => ha h.symm
          simp [List.mem_cons, haj]
        | some t =>
          simp only [Option.map_some']
          have hfind : lut_lookup ((a, t) ::
              js.filterMap (fun j' => (curve_entry cv j').map (fun t => (j', t)))) j =
              lut_lookup (js.filterMap (fun j' => (curve_entry cv j').map (fun t => (j', t)))) j := by
            unfold lut_lookup
            rw [List.find?_cons_of_neg]
            simp [ha]
          rw [hfind, ih]
          have haj : ¬ j = a := fun h => ha h.symm
          simp [List.mem_cons, haj]
  exact hgen (curve_js cv)

theorem build_layer_eq (cal : List Nat) (layout : Nat) :
    build_layer cal layout =
      ((usable_curves cal layout).reverse.map seg_entries).flatten := by
  unfold build_layer
  generalize usable_curves cal layout = cs
  suffices h : ∀ init : List (Int × ℚ),
      cs.foldl (fun acc cv => seg_entries cv ++ acc) init =
        ((cs.reverse.map seg_entries).flatten) ++ init by
    simpa using h []
  induction cs with
  | nil => simp
  | cons c cs ih =>
    intro init
    simp only [List.foldl_cons, List.reverse_cons, List.map_append, List.flatten_append, ih]
    simp

theorem lut_lookup_flatten (cs : List Curve) (j : Int) :
    lut_lookup ((cs.map seg_entries).flatten) j =
      cs.findSome? (fun cv => seg_lookup cv j) := by
  induction cs with
  | nil => simp [lut_lookup]
  | cons c cs ih =>
    simp only [List.map_cons, List.flatten_cons, List.findSome?_cons]
    rw [lut_lookup_append, lut_lookup_seg_entries]
    cases seg_lookup c j <;> simp [Option.or, ih]

theorem read_calibration_lut_lookup (cal : List Nat) (j : Int) :
    lut_lookup (read_calibration_lut cal) j =
      ((usable_curves cal (chosen_layout cal)).reverse).findSome?
        (fun cv => seg_lookup cv j) := by
  unfold read_calibration_lut chosen_layout
  by_cases h0 : (build_layer cal 0).isEmpty
  · rw [if_pos h0, if_pos h0, build_layer_eq, lut_lookup_flatten]
  · rw [if_neg h0, if_neg h0, build_layer_eq, lut_lookup_flatten]


/-- C1 (amended): every temperature stored in the LUT lies within the
plausible physical range −273.2 °C to 3000 °C; and the value stored for a
count `j` is the one computed by the *last* usable segment (in scan order,
within the selected layout pass) that stores an entry for `j` — later
segments overwrite entries from earlier (higher-priority) segments, they are
not skipped. -/
theorem C1_lut_range_and_last_segment :
    (∀ (cal : List Nat) (j : Int) (t : ℚ),
      lut_lookup (read_calibration_lut cal) j = some t →
        -1366 / 5 ≤ t ∧ t ≤ 3000) ∧
    (∀ (cal : List Nat) (j : Int),
      lut_lookup (read_calibration_lut cal) j =
        ((usable_curves cal (chosen_layout cal)).reverse).findSome?
          (fun cv => seg_lookup cv j)) := by
  constructor
  · intro cal j t h
    rw [read_calibration_lut_lookup] at h
    obtain ⟨cv, _, hsl⟩ := List.exists_of_findSome?_eq_some h
    have hce : curve_entry cv j = some t := by
      unfold seg_lookup at hsl
      split at hsl
      · exact hsl
      · cases hsl
    simp only [curve_entry] at hce
    split at hce
    · cases hce
    · split at hce
      · rename_i hrange
        cases hce
        exact hrange
      · cases hce
  · exact read_calibration_lut_lookup

/-- Witness for C1 at the two-segment buffer below: the stored value 1 °C for
count 4 is inside the physical range, and the lookup equals the
reverse-scan-order characterization. -/
theorem C1_lut_range_and_last_segment_witness :
    ((-1366 / 5 : ℚ) ≤ 1 ∧ (1 : ℚ) ≤ 3000) ∧
      lut_lookup (read_calibration_lut cal_two_segments) 4 =
        ((usable_curves cal_two_segments (chosen_layout cal_two_segments)).reverse).findSome?
          (fun cv => seg_lookup cv 4) :=
  ⟨C1_lut_range_and_last_segment.1 cal_two_segments 4 1 (by decide),
   C1_lut_range_and_last_segment.2 cal_two_segments 4⟩

/-- Counterexample to C1 as frozen: `cal_two_segments` holds two usable
segments whose count ranges both contain `j = 4`.  The first (scan order)
segment computes 2 °C for count 4, but the built LUT maps 4 to 1 °C — the
value of the *second* segment, which overwrote the first; entries are not
protected by "no entry already exists". -/
theorem C1_counterexample :
    usable_curves cal_two_segments 0 =
      [⟨1, 0, 0, 1, 3⟩, ⟨1, 0, 3, 1, 3⟩] ∧
    seg_lookup ⟨1, 0, 0, 1, 3⟩ 4 = some 2 ∧
    lut_lookup (read_calibration_lut cal_two_segments) 4 = some 1 ∧
    (1 : ℚ) ≠ 2 := by
  decide

/-- C2 (amended): a magic-tagged segment contributes entries to the LUT only
if its endpoints are ordered `t_lo < t_hi`, its quadratic coefficient is
nonzero, and `(a, b, c)` is not the reserved placeholder `(-1, -1, -1)`.
(The claimed −180 °C floor on the low endpoint is not enforced; see the
counterexample.) -/
theorem C2_usable_segment_conditions (cal : List Nat) (layout : Nat) (cv : Curve)
    (h : cv ∈ usable_curves cal layout) :
    cv.t_lo < cv.t_hi ∧ cv.a ≠ 0 ∧ ¬(cv.a = -1 ∧ cv.b = -1 ∧ cv.c = -1) := by
  unfold usable_curves at h
  obtain ⟨i, _, hdec⟩ := List.mem_filterMap.mp h
  cases hdc : decode_curve layout (curve_part cal i) with
  | none =>
    rw [hdc] at hdec
    simp at hdec
  | some cv2 =>
    rw [hdc] at hdec
    simp at hdec
    obtain ⟨hu, heq⟩ := hdec
    subst heq
    unfold curve_usable at hu
    rw [Bool.and_eq_true, Bool.and_eq_true, Bool.and_eq_true, Bool.and_eq_true] at hu
    obtain ⟨⟨⟨⟨hlt, ha⟩, hpl⟩, _⟩, _⟩ := hu
    refine ⟨by simpa using hlt, ?_, ?_⟩
    · intro h0
      rw [h0] at ha
      simp at ha
    · intro ⟨h1a, h1b, h1c⟩
      rw [h1a, h1b, h1c] at hpl
      simp at hpl

/-- Witness for C2: the single usable segment of `cal_low_segment` satisfies
the three usability conditions. -/
theorem C2_usable_segment_conditions_witness :
    (⟨1, 401, 0, -200, -199⟩ : Curve) ∈ usable_curves cal_low_segment 0 ∧
      ((⟨1, 401, 0, -200, -199⟩ : Curve).t_lo < (⟨1, 401, 0, -200, -199⟩ : Curve).t_hi ∧
        (⟨1, 401, 0, -200, -199⟩ : Curve).a ≠ 0 ∧
        ¬((⟨1, 401, 0, -200, -199⟩ : Curve).a = -1 ∧
          (⟨1, 401, 0, -200, -199⟩ : Curve).b = -1 ∧
          (⟨1, 401, 0, -200, -199⟩ : Curve).c = -1)) := by
  have h : (⟨1, 401, 0, -200, -199⟩ : Curve) ∈ usable_curves cal_low_segment 0 := by decide
  exact ⟨h, C2_usable_segment_conditions cal_low_segment 0 _ h⟩

/-- Counterexample to C2 as frozen: the segment in `cal_low_segment` has low
endpoint −200 °C, below the claimed −180 °C sanity floor, yet it is used and
contributes LUT entries (count −40200 maps to −200 °C). -/
theorem C2_counterexample :
    usable_curves cal_low_segment 0 = [⟨1, 401, 0, -200, -199⟩] ∧
      ((-200 : ℚ) < -180) ∧
      lut_lookup (read_calibration_lut cal_low_segment) (-40200) = some (-200) := by
  decide



/-! ## Radiometric conversion

Embeds the LUT branch of `IS2Parser._read_ir_data_from_ir_data` (parsers.py
lines 514-529): ε and τ are clamped to `[1e-6, 1]`, the background and
radiant temperatures are converted to Kelvin and raised to the fourth power,
`x = (T_raw⁴ − (1−ε)·T_bg⁴)/(τ·ε)`; `x ≤ 0` and missing LUT entries produce
NaN, modelled as `none`; `x ** 0.25` is modelled as a double `rat_sqrt`. -/

def c2k (c : ℚ) : ℚ := c + 5463 / 20

def k2c (k : ℚ) : ℚ := k - 5463 / 20

/-- `max(1e-6, min(1.0, x))`. -/
def clamp_eps (x : ℚ) : ℚ := max (1 / 1000000) (min 1 x)

/-- One pixel of the conversion loop over `d[offset : offset + n_pixels]`. -/
def convert_count (conv : Int → Option ℚ) (eps tau bg : ℚ) (i : Int) : Option ℚ :=
  match conv i with
  | none => none
  | some t_rad =>
    let tbg4 := c2k bg ^ 4
    let traw4 := c2k t_rad ^ 4
    let x := (traw4 - (1 - eps) * tbg4) / (tau * eps)
    if x ≤ 0 then none else some (k2c (rat_sqrt (rat_sqrt x)))

/-- The conversion as invoked: ε and τ clamped before use. -/
def convert_pixel (conv : Int → Option ℚ) (eps tau bg : ℚ) (i : Int) : Option ℚ :=
  convert_count conv (clamp_eps eps) (clamp_eps tau) bg i

theorem rat_sqrt_fourth (q : ℚ) (h : 0 ≤ q) : rat_sqrt (rat_sqrt (q ^ 4)) = q := by
  have h2 : (0 : ℚ) ≤ q * q := mul_nonneg h h
  have he : q ^ 4 = q * q * (q * q) := by ring
  rw [he, rat_sqrt_mul_self _ h2, rat_sqrt_mul_self _ h]

/-- C7 (amended): with ε = 1.0, τ = 1.0 and background 0, a raw count present
in the LUT converts to its radiant temperature unchanged, provided that
temperature exceeds −273.15 °C; at exactly −273.15 °C the quartic radiance is
zero and the converter outputs "no value", and below it the fourth root
returns the magnitude, so the identity fails (see the counterexample). -/
theorem C7_radiometric_identity (conv : Int → Option ℚ) (i : Int) (t : ℚ)
    (hl : conv i = some t) (ht : -5463 / 20 < t) :
    convert_pixel conv 1 1 0 i = some t := by
  unfold convert_pixel convert_count
  rw [hl]
  have hcl : clamp_eps 1 = 1 := by unfold clamp_eps; norm_num
  rw [hcl]
  have hpos : 0 < c2k t := by unfold c2k; linarith
  have hx : (c2k t ^ 4 - (1 - 1) * c2k 0 ^ 4) / (1 * 1) = c2k t ^ 4 := by ring
  simp only [hx]
  have hx4 : ¬ c2k t ^ 4 ≤ 0 := by
    push_neg
    positivity
  rw [if_neg hx4, rat_sqrt_fourth _ (le_of_lt hpos)]
  unfold k2c c2k
  norm_num

/-- Witness for C7 at a one-entry LUT mapping count 0 to 25 °C. -/
theorem C7_radiometric_identity_witness :
    (fun j => if j = 0 then some (25 : ℚ) else none) 0 = some 25 ∧
      convert_pixel (fun j => if j = 0 then some (25 : ℚ) else none) 1 1 0 0 = some 25 :=
  ⟨by decide, C7_radiometric_identity _ 0 25 (by decide) (by norm_num)⟩

/-- A LUT holding the physically-allowed radiant temperature −273.2 °C. -/
def lut_cold : Int → Option ℚ := fun j => if j = 0 then some (-1366 / 5) else none

/-- Counterexample to C7 as frozen: the LUT value −273.2 °C (inside the
builder's plausible range) converts, at ε = τ = 1.0 and background 0, to
−273.1 °C, not −273.2 °C: `(T_raw⁴) ** 0.25` collapses the sign of
`t + 273.15`. -/
theorem C7_counterexample :
    lut_cold 0 = some (-1366 / 5) ∧
      convert_pixel lut_cold 1 1 0 0 = some (-2731 / 10) ∧
      (-2731 / 10 : ℚ) ≠ -1366 / 5 := by
  refine ⟨by decide, ?_, by decide⟩
  decide

/-! ## Fixed-array geometry fix

Embeds the slicing and size-correction logic of
`IS2Parser._read_ir_data_from_ir_data` (parsers.py lines 480-496): the
header of `width` (or `height`, per the profile's `ir_data_offset`) 16-bit
samples is skipped, `n_pixels = width * height` samples are taken, and when
the slice length disagrees with `n_pixels` the first width in
`(320, 384, 640, 256, 160)` that divides the actual count with a height in
`[1, 10000]` is adopted. -/

def plausible_widths : List Nat := [320, 384, 640, 256, 160]

/-- The size-fix loop: first plausible width dividing `n_actual` with
quotient in `[1, 10000]`. -/
def find_plausible_width (n_actual : Nat) : Option Nat :=
  plausible_widths.find? (fun w => n_actual % w == 0 &&
    decide (1 ≤ n_actual / w) && decide (n_actual / w ≤ 10000))

/-- Returns `(size, n_pixels, raw_slice)` after the geometry fix. -/
def ir_data_geometry (d : List Nat) (w h : Nat) (offset_key : String) :
    (Nat × Nat) × Nat × List Nat :=
  let offset := if offset_key = "height" then h else w
  let n_pixels := w * h
  let raw_slice := (d.drop offset).take n_pixels
  let n_actual := raw_slice.length
  if n_actual = n_pixels then ((w, h), n_pixels, raw_slice)
  else
    match find_plausible_width n_actual with
    | some w2 => ((w2, n_actual / w2), n_actual, raw_slice)
    | none => ((w, h), n_pixels, raw_slice)

/-- C5: when the sliced payload length differs from the declared
`width * height` and some plausible width divides the actual sample count
with a height in [1, 10000], the locator adopts that corrected geometry (the
first such width, in tuple order) and does not fail: `n_pixels` becomes the
actual count and the corrected size is returned. -/
theorem C5_geometry_fix (d : List Nat) (w h : Nat) (k : String)
    (hmis : ((d.drop (if k = "height" then h else w)).take (w * h)).length ≠ w * h)
    (hex : ∃ w2 ∈ plausible_widths,
      ((d.drop (if k = "height" then h else w)).take (w * h)).length % w2 = 0 ∧
      1 ≤ ((d.drop (if k = "height" then h else w)).take (w * h)).length / w2 ∧
      ((d.drop (if k = "height" then h else w)).take (w * h)).length / w2 ≤ 10000) :
    ∃ w2 ∈ plausible_widths,
      ((d.drop (if k = "height" then h else w)).take (w * h)).length % w2 = 0 ∧
      1 ≤ ((d.drop (if k = "height" then h else w)).take (w * h)).length / w2 ∧
      ((d.drop (if k = "height" then h else w)).take (w * h)).length / w2 ≤ 10000 ∧
      (ir_data_geometry d w h k).1 =
        (w2, ((d.drop (if k = "height" then h else w)).take (w * h)).length / w2) ∧
      (ir_data_geometry d w h k).2.1 =
        ((d.drop (if k = "height" then h else w)).take (w * h)).length := by
  set n_actual := ((d.drop (if k = "height" then h else w)).take (w * h)).length with hna
  have hfind : (find_plausible_width n_actual).isSome := by
    rw [find_plausible_width, List.find?_isSome]
    obtain ⟨w2, hmem, h1, h2, h3⟩ := hex
    exact ⟨w2, hmem, by simp [h1, h2, h3]⟩
  obtain ⟨w2, hw2⟩ := Option.isSome_iff_exists.mp hfind
  have hmem := List.mem_of_find?_eq_some hw2
  have hprop := List.find?_some hw2
  simp only [Bool.and_eq_true, beq_iff_eq, decide_eq_true_eq] at hprop
  refine ⟨w2, hmem, hprop.1.1, hprop.1.2, hprop.2, ?_, ?_⟩ <;>
    · unfold ir_data_geometry
      rw [if_neg hmis]
      rw [hw2]


/-- Witness for C5: declared size 100×10 against a 740-sample buffer with
width-keyed header skip leaves 640 samples; width 320 divides 640 giving
height 2 in range. -/
theorem C5_geometry_fix_witness :
    ∃ w2 ∈ plausible_widths, 640 % w2 = 0 ∧ 1 ≤ 640 / w2 ∧ 640 / w2 ≤ 10000 ∧
      (ir_data_geometry (List.replicate 740 0) 100 10 "width").1 = (w2, 640 / w2) ∧
      (ir_data_geometry (List.replicate 740 0) 100 10 "width").2.1 = 640 := by
  have h := C5_geometry_fix (List.replicate 740 0) 100 10 "width" (by decide)
    ⟨320, by decide, by decide, by decide, by decide⟩
  rw [show (((List.replicate (740 : Nat) (0 : Nat)).drop
      (if ("width" : String) = "height" then (10 : Nat) else 100)).take (100 * 10)).length =
      640 from by decide] at h
  exact h

/-! ## Camera profile resolution

Embeds `get_camera_profile` (camera_profiles.py lines 188-221) and its model
normalization.  The registry keys, in detection order, are TiS75+, Ti480P,
Ti300; a model matches a canonical name when the canonical name occurs in the
model string (`canonical in model`) or the model starts with it.  An
unmatched model resolves to the default classic `IR.data` profile unless the
archive has only a `CalTempDataRex` thermal source, in which case
`UnsupportedCameraError` is raised (modelled as `Except.error`). -/

def canonical_models : List (List Char) := ["TiS75+".toList, "Ti480P".toList, "Ti300".toList]

def is_space (c : Char) : Bool :=
  c = ' ' || c = '\t' || c = '\n' || c = '\r' || c = '\x0b' || c = '\x0c'

/-- Python `str.strip()` (ASCII whitespace). -/
def py_strip (s : List Char) : List Char :=
  ((s.dropWhile is_space).reverse.dropWhile is_space).reverse

/-- Python `str.rstrip("- \t")`. -/
def py_rstrip_dash (s : List Char) : List Char :=
  (s.reverse.dropWhile (fun c => c = '-' || c = ' ' || c = '\t')).reverse

/-- Python `needle in hay` on strings. -/
def list_contains : List Char → List Char → Bool
  | [], needle => needle.isEmpty
  | c :: t, needle => needle.isPrefixOf (c :: t) || list_contains t needle

/-- `(camera_model or "").strip().rstrip("- \t")`, then `"?"`, `"Unknown"`
and `""` are replaced by the empty model. -/
def normalize_model (camera_model : Option (List Char)) : List Char :=
  let m := py_rstrip_dash (py_strip (camera_model.getD []))
  if m = "?".toList || m = "Unknown".toList || m = [] then [] else m

/-- The registry loop: first canonical name contained in the model, or that
the model starts with. -/
def match_canonical (model : List Char) : Option (List Char) :=
  canonical_models.find? (fun canonical =>
    list_contains model canonical || canonical.isPrefixOf model)

inductive ProfileChoice where
  | known (canonical : List Char)
  | classicDefault
deriving DecidableEq, Repr

/-- `get_camera_profile(camera_model, has_ir_data, has_caltempdatarex)`:
`Except.error ()` models raising `UnsupportedCameraError`;
`.classicDefault` models `_profile_ir_data(model or "Unknown", 320, 240)`. -/
def get_camera_profile (camera_model : Option (List Char))
    (has_ir_data has_caltempdatarex : Bool) : Except Unit ProfileChoice :=
  let model := normalize_model camera_model
  match match_canonical model with
  | some c => .ok (.known c)
  | none =>
    if has_ir_data then .ok .classicDefault
    else if has_caltempdatarex then .error ()
    else .ok .classicDefault

/-- C3: for every model name matching no registered canonical name (exact,
prefix or substring), profile resolution fails exactly when a scanned-blob
source (`CalTempDataRex.gpbenc`) is present and no fixed-array source
(`IR.data`) is; when a fixed-array source exists, or neither source exists,
it returns the default classic profile instead. -/
theorem C3_unmatched_model_resolution (camera_model : Option (List Char))
    (has_ir_data has_caltempdatarex : Bool)
    (h : match_canonical (normalize_model camera_model) = none) :
    (get_camera_profile camera_model has_ir_data has_caltempdatarex = .error () ↔
      has_caltempdatarex = true ∧ has_ir_data = false) ∧
    ((has_ir_data = true ∨ has_caltempdatarex = false) →
      get_camera_profile camera_model has_ir_data has_caltempdatarex =
        .ok .classicDefault) := by
  simp only [get_camera_profile]
  rw [h]
  cases has_ir_data <;> cases has_caltempdatarex <;> simp

/-- Witness for C3 at the unregistered model "FLK-X9" with only a
CalTempDataRex source: resolution fails. -/
theorem C3_unmatched_model_resolution_witness :
    match_canonical (normalize_model (some "FLK-X9".toList)) = none ∧
      (get_camera_profile (some "FLK-X9".toList) false true = .error () ↔
        true = true ∧ false = false) ∧
      get_camera_profile (some "FLK-X9".toList) true true = .ok .classicDefault := by
  have h : match_canonical (normalize_model (some "FLK-X9".toList)) = none := by decide
  exact ⟨h, (C3_unmatched_model_resolution (some "FLK-X9".toList) false true h).1,
    (C3_unmatched_model_resolution (some "FLK-X9".toList) true true h).2 (Or.inl rfl)⟩



/-! ## Metadata reading

Embeds `IS2Parser._read_image_properties` (parsers.py lines 189-261) exactly
up to, but not including, the `_infer_dimensions_from_main_image` call (line
262, embedded separately).  JSON scalar values are `JVal`; a decoded file is
an association list (Python dicts have unique keys; a JSON root that is not
an object raises on first access and skips the file exactly like a decode
failure).  Python `float(...)`/`int(...)` are `Option`-valued (`py_float`,
`py_int`; the string parsers accept plain decimal forms — Python accepts a
few more spellings, none of which any claim depends on).  The body runs
inside `try: ... except Exception: pass`, so it is embedded as
`Except IrState IrState`: `.error st` is an exception raised with the
mutations made so far, which the caller keeps (`pass`) before moving to the
next candidate file.  The only statements in the embedded range that can
raise are the two unprotected `int(...)` calls for `VLWidth`/`VLHeight`
(lines 226-227); everything else falls back to defaults.  The trailing
string/boolean fields (lenses, calibration date, title, comments, contains-*
flags, lines 249-257) are straight-line total assignments of values that no
claim mentions and that cannot raise; they are omitted from the state. -/

inductive JVal where
  | jstr (s : List Char)
  | jnum (q : ℚ)
  | jbool (b : Bool)
  | jnull
deriving DecidableEq, Repr

abbrev Props := List (List Char × JVal)

/-- Python `str.strip('"')`. -/
def strip_quotes (s : List Char) : List Char :=
  ((s.dropWhile (fun c => c = '"')).reverse.dropWhile (fun c => c = '"')).reverse

/-- `IS2Parser._get_prop`: first key present with a non-null value; strings
are stripped of surrounding double quotes. -/
def get_prop (props : Props) (keys : List (List Char)) : Option JVal :=
  keys.findSome? (fun k =>
    match props.lookup k with
    | some JVal.jnull => none
    | some (JVal.jstr s) => some (JVal.jstr (strip_quotes s))
    | some v => some v
    | none => none)

def digit_val (c : Char) : Option Nat :=
  if '0' ≤ c ∧ c ≤ '9' then some (c.toNat - '0'.toNat) else none

def parse_digits_aux : List Char → Nat → Option Nat
  | [], acc => some acc
  | c :: t, acc =>
    match digit_val c with
    | some d => parse_digits_aux t (10 * acc + d)
    | none => none

/-- A nonempty all-digit string as a number. -/
def parse_digits : List Char → Option Nat
  | [] => none
  | l => parse_digits_aux l 0

def py_float_core (s : List Char) : Option ℚ :=
  let intPart := s.takeWhile (fun c => c ≠ '.')
  match s.dropWhile (fun c => c ≠ '.') with
  | [] => (parse_digits s).map (fun n => (n : ℚ))
  | _ :: frac =>
    if intPart.isEmpty && frac.isEmpty then none
    else
      match (if intPart.isEmpty then some 0 else parse_digits intPart),
          (if frac.isEmpty then some 0 else parse_digits frac) with
      | some ip, some fp => some ((ip : ℚ) + (fp : ℚ) / (10 : ℚ) ^ frac.length)
      | _, _ => none

/-- Python `float(str)` on plain decimal forms. -/
def py_float_of_chars : List Char → Option ℚ
  | '-' :: t => (py_float_core t).map Neg.neg
  | '+' :: t => py_float_core t
  | t => py_float_core t

/-- Python `int(str)` on plain integer forms. -/
def py_int_of_chars : List Char → Option Int
  | '-' :: t => (parse_digits t).map (fun n => -(n : Int))
  | '+' :: t => (parse_digits t).map (fun n => (n : Int))
  | t => (parse_digits t).map (fun n => (n : Int))

/-- Truncation toward zero, as Python `int()` on a float. -/
def rat_trunc (q : ℚ) : Int := q.num.tdiv q.den

/-- Python `float(v)` on a JSON scalar. -/
def py_float : JVal → Option ℚ
  | .jnum q => some q
  | .jbool b => some (if b then 1 else 0)
  | .jstr s => py_float_of_chars s
  | .jnull => none

/-- Python `int(v)` on a JSON scalar. -/
def py_int : JVal → Option Int
  | .jnum q => some (rat_trunc q)
  | .jbool b => some (if b then 1 else 0)
  | .jstr s => py_int_of_chars s
  | .jnull => none

/-- Python truthiness of a JSON scalar. -/
def truthy : JVal → Bool
  | .jnum q => q != 0
  | .jstr s => !s.isEmpty
  | .jbool b => b
  | .jnull => false

/-- `str(v).strip('"')`: strings are re-stripped; the rendering of
non-strings is not observable by any claim and keeps its tag. -/
def py_str_strip : JVal → JVal
  | .jstr s => .jstr (strip_quotes s)
  | v => v

/-- The fields of the `ir` dictionary written by `_read_image_properties`
and `_infer_dimensions_from_main_image`; `none` = key absent. -/
structure IrState where
  cameraManufacturer : Option JVal := none
  cameraModel : Option JVal := none
  cameraSerial : Option JVal := none
  engineSerial : Option JVal := none
  irWidth : Option Int := none
  irHeight : Option Int := none
  vlWidth : Option Int := none
  vlHeight : Option Int := none
  size : Option (Int × Int) := none
  captureDateTime : Option JVal := none
  minTemp : Option ℚ := none
  maxTemp : Option ℚ := none
  avgTemp : Option ℚ := none
  centerTemp : Option ℚ := none
  backgroundTemp : Option ℚ := none
  emissivity : Option ℚ := none
  transmission : Option ℚ := none
deriving DecidableEq, Repr

def k_make : List (List Char) :=
  ["IRPROP_THERMAL_IMAGER_MAKE".toList, "ThermalImagerMake".toList, "CameraManufacturer".toList]

def k_model : List (List Char) :=
  ["IRPROP_THERMAL_IMAGER_MODEL".toList, "ThermalImagerModel".toList,
   "CameraModel".toList, "Model".toList]

def k_sn : List (List Char) :=
  ["IRPROP_THERMAL_IMAGER_SN".toList, "ThermalImagerSN".toList,
   "CameraSerial".toList, "SerialNumber".toList]

def k_width : List (List Char) :=
  ["IRPROP_IR_SENSOR_WIDTH".toList, "IRWidth".toList, "Width".toList, "ThermalWidth".toList]

def k_height : List (List Char) :=
  ["IRPROP_IR_SENSOR_HEIGHT".toList, "IRHeight".toList, "Height".toList, "ThermalHeight".toList]

def k_vl_width : List (List Char) := ["IRPROP_VL_SENSOR_WIDTH".toList, "VLWidth".toList]

def k_vl_height : List (List Char) := ["IRPROP_VL_SENSOR_HEIGHT".toList, "VLHeight".toList]

def k_capture : List (List Char) :=
  ["IRPROP_THERMAL_IMAGE_CAPTURE_DATE_TIME".toList, "CaptureDateTime".toList, "DateTime".toList]

def k_min : List (List Char) :=
  ["IRPROP_THERMAL_IMAGE_MIN_TEMP_C".toList, "MinTemp".toList, "MinTempC".toList]

def k_max : List (List Char) :=
  ["IRPROP_THERMAL_IMAGE_MAX_TEMP_C".toList, "MaxTemp".toList, "MaxTempC".toList]

def k_avg : List (List Char) :=
  ["IRPROP_THERMAL_IMAGE_AVG_TEMP_C".toList, "AvgTemp".toList, "AvgTempC".toList]

def k_center : List (List Char) :=
  ["IRPROP_THERMAL_IMAGE_CENTER_POINT_TEMP_C".toList, "CenterTemp".toList]

def k_bg : List (List Char) :=
  ["IRPROP_THERMAL_IMAGE_BG_TEMP_C".toList, "BackgroundTemp".toList,
   "ReflectedTemp".toList, "BgTempC".toList]

def k_emissivity : List (List Char) :=
  ["IRPROP_THERMAL_IMAGE_EMISSIVITY".toList, "Emissivity".toList]

def k_transmission : List (List Char) :=
  ["IRPROP_THERMAL_IMAGE_TRANSMISSIVITY".toList, "Transmission".toList,
   "Transmissivity".toList]

/-- `ir["IRWidth"] = int(w) if w is not None else 640`, `try`-protected. -/
def width_val (props : Props) : Int :=
  match get_prop props k_width with
  | none => 640
  | some v => (py_int v).getD 640

def height_val (props : Props) : Int :=
  match get_prop props k_height with
  | none => 480
  | some v => (py_int v).getD 480

/-- The argument of the unprotected `int(...)` at line 226:
`g("IRPROP_VL_SENSOR_WIDTH", "VLWidth", d=ir["IRWidth"]) or ir["IRWidth"]`. -/
def vl_width_arg (props : Props) : JVal :=
  let gv := (get_prop props k_vl_width).getD (.jnum (width_val props : ℚ))
  if truthy gv then gv else .jnum (width_val props : ℚ)

def vl_height_arg (props : Props) : JVal :=
  let gv := (get_prop props k_vl_height).getD (.jnum (height_val props : ℚ))
  if truthy gv then gv else .jnum (height_val props : ℚ)

/-- One row of the defaults loop at lines 230-242. -/
def float_field (props : Props) (keys : List (List Char)) (dflt : ℚ) : ℚ :=
  match get_prop props keys with
  | none => dflt
  | some v => (py_float v).getD dflt

/-- The body of `_read_image_properties` for one successfully decoded file:
`.error st` models an exception escaping to the outer handler with the
mutations made so far. -/
def read_props_body (props : Props) (st : IrState) : Except IrState IrState :=
  let st := match get_prop props k_make with
    | some v => if v = JVal.jstr "Unknown".toList then st
        else { st with cameraManufacturer := some v }
    | none => st
  let st := match get_prop props k_model with
    | some v => if v = JVal.jstr "Unknown".toList then st
        else { st with cameraModel := some (py_str_strip v) }
    | none => st
  let st := match get_prop props k_sn with
    | some v =>
      if v = JVal.jstr "Unknown".toList then st
      else
        let es := match st.engineSerial with
          | some e => some e
          | none => some (py_str_strip v)
        { st with cameraSerial := some (py_str_strip v), engineSerial := es }
    | none => st
  let irW := width_val props
  let irH := height_val props
  let st := { st with irWidth := some irW, irHeight := some irH }
  match py_int (vl_width_arg props) with
  | none => .error st
  | some vlW =>
    let st := { st with vlWidth := some vlW }
    match py_int (vl_height_arg props) with
    | none => .error st
    | some vlH =>
      let st := { st with vlHeight := some vlH }
      let st := { st with size := some (irW, irH) }
      let st := { st with captureDateTime := some (
        let cd := (get_prop props k_capture).getD (.jstr "".toList)
        if truthy cd then cd else .jstr "".toList) }
      let st := { st with
        minTemp := some (float_field props k_min 0),
        maxTemp := some (float_field props k_max 0),
        avgTemp := some (float_field props k_avg 0),
        centerTemp := some (float_field props k_center 0),
        backgroundTemp := some (float_field props k_bg 20),
        emissivity := some (float_field props k_emissivity (19 / 20)) }
      let st := match get_prop props k_transmission with
        | none => st
        | some v =>
          match py_float v with
          | some q => { st with transmission := some q }
          | none => st
      .ok st

/-- First successful decode among the attempted encodings
(utf-8, utf-16, latin-1, cp1252, in that order). -/
def first_some : List (Option Props) → Option Props
  | [] => none
  | some p :: _ => some p
  | none :: t => first_some t

/-- `_read_image_properties` over the candidate files
(`ImageProperties.json`, then `metadata.json`): a file whose four encoding
attempts all fail is skipped; a file that decodes is processed, and on
success the loop breaks; an exception keeps the mutations made so far and
moves to the next file. -/
def read_image_properties : List (List (Option Props)) → IrState → IrState
  | [], st => st
  | encs :: rest, st =>
    match first_some encs with
    | none => read_image_properties rest st
    | some props =>
      match read_props_body props st with
      | .ok st2 => st2
      | .error st2 => read_image_properties rest st2

/-- The state an invocation of the body leaves behind, whether or not it
raised. -/
def body_state : Except IrState IrState → IrState
  | .ok st => st
  | .error st => st


/-- Both unprotected `int(...)` conversions succeed, so the body reaches the
defaults loop. -/
def vl_ok (props : Props) : Prop :=
  (py_int (vl_width_arg props)).isSome ∧ (py_int (vl_height_arg props)).isSome

theorem read_props_body_irWidth (props : Props) (st : IrState) :
    (body_state (read_props_body props st)).irWidth = some (width_val props) := by
  simp only [read_props_body]
  repeat' split
  all_goals simp [body_state]

theorem read_props_body_irHeight (props : Props) (st : IrState) :
    (body_state (read_props_body props st)).irHeight = some (height_val props) := by
  simp only [read_props_body]
  repeat' split
  all_goals simp [body_state]

theorem read_props_body_emissivity (props : Props) (st : IrState) (h : vl_ok props) :
    (body_state (read_props_body props st)).emissivity =
      some (float_field props k_emissivity (19 / 20)) := by
  obtain ⟨hw, hh⟩ := h
  obtain ⟨vw, hvw⟩ := Option.isSome_iff_exists.mp hw
  obtain ⟨vh, hvh⟩ := Option.isSome_iff_exists.mp hh
  simp only [read_props_body, hvw, hvh]
  repeat' split
  all_goals simp [body_state]

theorem read_props_body_background (props : Props) (st : IrState) (h : vl_ok props) :
    (body_state (read_props_body props st)).backgroundTemp =
      some (float_field props k_bg 20) := by
  obtain ⟨hw, hh⟩ := h
  obtain ⟨vw, hvw⟩ := Option.isSome_iff_exists.mp hw
  obtain ⟨vh, hvh⟩ := Option.isSome_iff_exists.mp hh
  simp only [read_props_body, hvw, hvh]
  repeat' split
  all_goals simp [body_state]

/-- C8 (amended): the metadata reader never lets an exception escape (the
embedding is a total function whose every fallible step is handled); JSON
decoding takes the first encoding that succeeds among utf-8, utf-16,
latin-1, cp1252 in order, and a file undecodable in every encoding leaves
the state untouched; width and height fall back to 640 and 480 whenever the
corresponding keys are absent or unconvertible; emissivity and background
temperature fall back to 0.95 and 20 °C *provided* the unprotected
visible-light dimension conversions succeed — an unconvertible VL dimension
aborts the rest of that file's decode and leaves the later fields unset (see
the counterexample). -/
theorem C8_metadata_fallbacks :
    (∀ (files : List (List (Option Props))) (st : IrState),
      (∀ encs ∈ files, first_some encs = none) →
        read_image_properties files st = st) ∧
    (∀ (p : Props) (t : List (Option Props)),
      first_some (some p :: t) = some p ∧ first_some (none :: t) = first_some t) ∧
    (∀ (props : Props) (st : IrState),
      (get_prop props k_width).bind py_int = none →
        (body_state (read_props_body props st)).irWidth = some 640) ∧
    (∀ (props : Props) (st : IrState),
      (get_prop props k_height).bind py_int = none →
        (body_state (read_props_body props st)).irHeight = some 480) ∧
    (∀ (props : Props) (st : IrState), vl_ok props →
      (get_prop props k_emissivity).bind py_float = none →
        (body_state (read_props_body props st)).emissivity = some (19 / 20)) ∧
    (∀ (props : Props) (st : IrState), vl_ok props →
      (get_prop props k_bg).bind py_float = none →
        (body_state (read_props_body props st)).backgroundTemp = some 20) := by
  refine ⟨?_, ?_, ?_, ?_, ?_, ?_⟩
  · intro files
    induction files with
    | nil => intro st _; rfl
    | cons encs rest ih =>
      intro st hall
      unfold read_image_properties
      rw [hall encs (List.mem_cons_self _ _)]
      exact ih st (fun e he => hall e (List.mem_cons_of_mem _ he))
  · intro p t
    exact ⟨rfl, rfl⟩
  · intro props st hnone
    rw [read_props_body_irWidth]
    unfold width_val
    cases hg : get_prop props k_width with
    | none => rfl
    | some v =>
      rw [hg] at hnone
      simp at hnone
      simp [hnone]
  · intro props st hnone
    rw [read_props_body_irHeight]
    unfold height_val
    cases hg : get_prop props k_height with
    | none => rfl
    | some v =>
      rw [hg] at hnone
      simp at hnone
      simp [hnone]
  · intro props st hok hnone
    rw [read_props_body_emissivity props st hok]
    unfold float_field
    cases hg : get_prop props k_emissivity with
    | none => rfl
    | some v =>
      rw [hg] at hnone
      simp at hnone
      simp [hnone]
  · intro props st hok hnone
    rw [read_props_body_background props st hok]
    unfold float_field
    cases hg : get_prop props k_bg with
    | none => rfl
    | some v =>
      rw [hg] at hnone
      simp at hnone
      simp [hnone]

/-- Witness for C8: two undecodable files leave the state untouched, and an
empty JSON object yields every claimed default. -/
theorem C8_metadata_fallbacks_witness :
    read_image_properties [[none, none, none, none], [none, none, none, none]]
      {} = ({} : IrState) ∧
    (body_state (read_props_body [] {})).irWidth = some 640 ∧
    (body_state (read_props_body [] {})).irHeight = some 480 ∧
    (body_state (read_props_body [] {})).emissivity = some (19 / 20) ∧
    (body_state (read_props_body [] {})).backgroundTemp = some 20 := by
  refine ⟨C8_metadata_fallbacks.1 _ {} (by decide), ?_, ?_, ?_, ?_⟩
  · exact C8_metadata_fallbacks.2.2.1 [] {} (by decide)
  · exact C8_metadata_fallbacks.2.2.2.1 [] {} (by decide)
  · exact C8_metadata_fallbacks.2.2.2.2.1 [] {} ⟨by decide, by decide⟩ (by decide)
  · exact C8_metadata_fallbacks.2.2.2.2.2 [] {} ⟨by decide, by decide⟩ (by decide)

/-- A metadata object whose only key is a VLWidth that `int()` cannot
convert. -/
def ce_props : Props := [("VLWidth".toList, JVal.jstr "abc".toList)]

/-- Counterexample to C8 as frozen: with `{"VLWidth": "abc"}` the unprotected
`int(...)` at line 226 raises after width/height were set; the outer handler
swallows the exception (no error escapes), but the decode of that file is
aborted: emissivity and background temperature do *not* fall back to their
documented defaults — they are never set at all. -/
theorem C8_counterexample :
    (read_image_properties [[some ce_props]] {}).irWidth = some 640 ∧
      (read_image_properties [[some ce_props]] {}).emissivity = none ∧
      (read_image_properties [[some ce_props]] {}).backgroundTemp = none := by
  decide



/-! ## Dimension inference from the main visible-light image filename

Embeds `IS2Parser._infer_dimensions_from_main_image` (parsers.py lines
290-323).  Directory entries of `Images/Main` are `(name, byte size)` pairs
in listing order.  A file qualifies when its lowercased name ends in
`.jpg`, its stem (name up to the last dot) has exactly 8 characters parsing
as two 4-digit hexadecimal halves, and both halves lie in `[100, 4096]`
(`int(s, 16)` is modelled on plain hex-digit strings; Python additionally
accepts signs/whitespace, which no claim involves).  The qualifying file of
strictly greatest size wins (ties keep the earlier file; zero-byte files
never win because the running best starts at 0). -/

structure MainImage where
  name : List Char
  size : Nat
deriving DecidableEq, Repr

def ends_with_jpg (name : List Char) : Bool :=
  ".jpg".toList.isSuffixOf (name.map Char.toLower)

/-- `os.path.splitext(name)[0]`: the name up to its last dot. -/
def stem_of (name : List Char) : List Char :=
  if name.any (fun c => c = '.') then
    ((name.reverse.dropWhile (fun c => c ≠ '.')).drop 1).reverse
  else name

def hex_digit (c : Char) : Option Nat :=
  if '0' ≤ c ∧ c ≤ '9' then some (c.toNat - '0'.toNat)
  else if 'a' ≤ c ∧ c ≤ 'f' then some (c.toNat - 'a'.toNat + 10)
  else if 'A' ≤ c ∧ c ≤ 'F' then some (c.toNat - 'A'.toNat + 10)
  else none

def parse_hex4 : List Char → Option Nat
  | [c0, c1, c2, c3] => do
    let d0 ← hex_digit c0
    let d1 ← hex_digit c1
    let d2 ← hex_digit c2
    let d3 ← hex_digit c3
    pure (((d0 * 16 + d1) * 16 + d2) * 16 + d3)
  | _ => none

/-- The per-file qualification test of the loop body: `.jpg` suffix, 8-char
stem, two big-endian hex halves, both in [100, 4096]. -/
def stem_dims (name : List Char) : Option (Nat × Nat) :=
  if !ends_with_jpg name then none
  else
    let stem := stem_of name
    if stem.length ≠ 8 then none
    else
      match parse_hex4 (stem.take 4), parse_hex4 (stem.drop 4) with
      | some w_hex, some h_hex =>
        if w_hex < 100 || w_hex > 4096 || h_hex < 100 || h_hex > 4096 then none
        else some (w_hex, h_hex)
      | _, _ => none

/-- The `best_size`/`best_stem` accumulation over the directory listing. -/
def best_stem (files : List MainImage) : Option (Nat × Nat) :=
  (files.foldl (fun acc f =>
    match stem_dims f.name with
    | some d => if f.size > acc.2 then (some d, f.size) else acc
    | none => acc) ((none : Option (Nat × Nat)), 0)).1

def truthy_dim : Option Int → Bool
  | some n => n != 0
  | none => false

/-- `IS2Parser._infer_dimensions_from_main_image`: keep metadata dimensions
that are set, non-zero and not exactly the generic 640×480; otherwise adopt
the hex-stem dimensions of the largest qualifying main image, also updating
visible-light dimensions still holding their generic defaults. -/
def infer_dimensions_from_main_image (have_dir : Bool) (files : List MainImage)
    (st : IrState) : IrState :=
  if truthy_dim st.irWidth && truthy_dim st.irHeight &&
      !(st.irWidth == some 640 && st.irHeight == some 480) then st
  else if !have_dir then st
  else
    match best_stem files with
    | none => st
    | some (w, h) =>
      { st with
        irWidth := some (w : Int)
        irHeight := some (h : Int)
        size := some ((w : Int), (h : Int))
        vlWidth := if st.vlWidth = none ∨ st.vlWidth = some 640 then
            some (w : Int) else st.vlWidth
        vlHeight := if st.vlHeight = none ∨ st.vlHeight = some 480 then
            some (h : Int) else st.vlHeight }

theorem best_stem_sound (files : List MainImage) (d : Nat × Nat)
    (h : best_stem files = some d) :
    ∃ f ∈ files, stem_dims f.name = some d := by
  unfold best_stem at h
  suffices hgen : ∀ (acc : Option (Nat × Nat) × Nat),
      (files.foldl (fun acc f =>
        match stem_dims f.name with
        | some d2 => if f.size > acc.2 then (some d2, f.size) else acc
        | none => acc) acc).1 = some d →
      acc.1 = some d ∨ ∃ f ∈ files, stem_dims f.name = some d by
    rcases hgen ((none : Option (Nat × Nat)), 0) h with hc | hc
    · cases hc
    · exact hc
  clear h
  induction files with
  | nil =>
    intro acc h
    exact Or.inl h
  | cons f fs ih =>
    intro acc h
    rw [List.foldl_cons] at h
    rcases hsd : stem_dims f.name with _ | d2
    · rw [hsd] at h
      rcases ih _ h with hc | ⟨g, hg, hgd⟩
      · exact Or.inl hc
      · exact Or.inr ⟨g, List.mem_cons_of_mem _ hg, hgd⟩
    · rw [hsd] at h
      by_cases hsz : f.size > acc.2
      · have hstep : (match some d2 with
            | some d2 => if f.size > acc.2 then (some d2, f.size) else acc
            | none => acc) = if f.size > acc.2 then (some d2, f.size) else acc := rfl
        rw [hstep, if_pos hsz] at h
        rcases ih _ h with hc | ⟨g, hg, hgd⟩
        · simp only at hc
          cases hc
          exact Or.inr ⟨f, List.mem_cons_self _ _, hsd⟩
        · exact Or.inr ⟨g, List.mem_cons_of_mem _ hg, hgd⟩
      · have hstep : (match some d2 with
            | some d2 => if f.size > acc.2 then (some d2, f.size) else acc
            | none => acc) = if f.size > acc.2 then (some d2, f.size) else acc := rfl
        rw [hstep, if_neg hsz] at h
        rcases ih _ h with hc | ⟨g, hg, hgd⟩
        · exact Or.inl hc
        · exact Or.inr ⟨g, List.mem_cons_of_mem _ hg, hgd⟩

theorem stem_dims_range (name : List Char) (w h : Nat)
    (hd : stem_dims name = some (w, h)) :
    ends_with_jpg name = true ∧ (stem_of name).length = 8 ∧
      parse_hex4 ((stem_of name).take 4) = some w ∧
      parse_hex4 ((stem_of name).drop 4) = some h ∧
      100 ≤ w ∧ w ≤ 4096 ∧ 100 ≤ h ∧ h ≤ 4096 := by
  simp only [stem_dims] at hd
  split at hd
  · cases hd
  · rename_i hj
    split at hd
    · cases hd
    · rename_i hlen
      split at hd
      · rename_i wv hv hw hh
        split at hd
        · cases hd
        · rename_i hr
          cases hd
          simp only [Bool.or_eq_true, decide_eq_true_eq, not_or] at hr
          refine ⟨by simpa using hj, by simpa using hlen, hw, hh,
            by omega, by omega, by omega, by omega⟩
      · cases hd

/-- C6: (keep) when metadata dimensions are present, non-zero, and not
exactly the generic 640×480, the inference leaves the state unchanged;
(override) otherwise, when the main-image directory exists and the largest
qualifying file has hex-stem dimensions `(w, h)`, those become the resolved
width, height and size (they take precedence over the profile defaults,
which are consulted only for dimensions still unset afterwards); (sound)
any best-stem result comes from a listed `.jpg` whose 8-character hex stem
halves both lie in [100, 4096]. -/
theorem C6_dimension_inference (have_dir : Bool) (files : List MainImage)
    (st : IrState) :
    ((truthy_dim st.irWidth && truthy_dim st.irHeight &&
        !(st.irWidth == some 640 && st.irHeight == some 480)) = true →
      infer_dimensions_from_main_image have_dir files st = st) ∧
    (∀ w h, (truthy_dim st.irWidth && truthy_dim st.irHeight &&
        !(st.irWidth == some 640 && st.irHeight == some 480)) = false →
      have_dir = true → best_stem files = some (w, h) →
      (infer_dimensions_from_main_image have_dir files st).irWidth = some (w : Int) ∧
      (infer_dimensions_from_main_image have_dir files st).irHeight = some (h : Int) ∧
      (infer_dimensions_from_main_image have_dir files st).size =
        some ((w : Int), (h : Int))) ∧
    (∀ w h, best_stem files = some (w, h) →
      ∃ f ∈ files, stem_dims f.name = some (w, h) ∧
        100 ≤ w ∧ w ≤ 4096 ∧ 100 ≤ h ∧ h ≤ 4096) := by
  refine ⟨?_, ?_, ?_⟩
  · intro hc
    unfold infer_dimensions_from_main_image
    rw [if_pos hc]
  · intro w h hc hdir hbest
    unfold infer_dimensions_from_main_image
    rw [if_neg (by rw [hc]; simp), hdir]
    simp only [Bool.not_true, Bool.false_eq_true, if_false]
    rw [hbest]
    exact ⟨rfl, rfl, rfl⟩
  · intro w h hbest
    obtain ⟨f, hf, hfd⟩ := best_stem_sound files (w, h) hbest
    obtain ⟨_, _, _, _, h1, h2, h3, h4⟩ := stem_dims_range f.name w h hfd
    exact ⟨f, hf, hfd, h1, h2, h3, h4⟩

/-- Witness for C6: metadata width 0 (the "no real value" case), one
qualifying file "00800064.jpg" (128×100 in hex) of size 10: the inference
adopts 128×100. -/
theorem C6_dimension_inference_witness :
    (infer_dimensions_from_main_image true [⟨"00800064.jpg".toList, 10⟩]
        { irWidth := some 0 }).irWidth = some 128 ∧
    (infer_dimensions_from_main_image true [⟨"00800064.jpg".toList, 10⟩]
        { irWidth := some 0 }).irHeight = some 100 ∧
    (∃ f ∈ [(⟨"00800064.jpg".toList, 10⟩ : MainImage)],
      stem_dims f.name = some (128, 100) ∧
        100 ≤ 128 ∧ 128 ≤ 4096 ∧ 100 ≤ 100 ∧ 100 ≤ 4096) := by
  have hbest : best_stem [(⟨"00800064.jpg".toList, 10⟩ : MainImage)] =
      some (128, 100) := by decide
  have h2 := (C6_dimension_inference true [⟨"00800064.jpg".toList, 10⟩]
      { irWidth := some 0 }).2.1 128 100 (by decide) rfl hbest
  have h3 := (C6_dimension_inference true [⟨"00800064.jpg".toList, 10⟩]
      { irWidth := some 0 }).2.2 128 100 hbest
  exact ⟨h2.1, h2.2.1, h3⟩


end FlukeIs2
